import Mathlib

/-!
Verification of the JairoJobs query engine (search/filter/pagination and
detail lookup) against its natural-language specification.

The repository carries two parallel implementations of the service layer:

* `services/JobsService.js` — filters on `job.company` as a plain string and
  always resolves (no NotFound branches);
* a second version embedded in `migrations/005_add_companies_foreign_key.sql`
  (lines 690-844) — filters on `job.company.name` (company as an object) and
  rejects with "No jobs found" / "Page number exceeds available pages".

Both are embedded below: the 005 version as `searchAndListJobs` over
`JobSummary` (company as an object, the data model the spec standardises on),
and the plain-string version as `searchAndListJobsJS` over `JobRecord`.
Promises are modelled by `Except String`: `Except.error msg` stands for
`reject(Service.rejectResponse({message: msg}, 404))` and `Except.ok` for
`resolve(Service.successResponse(...))`.  The embedded functions are pure:
the JS bodies perform no mutation (console logging aside), so each invocation
is a function of the already-loaded collection and the parameters.
-/

namespace JairoJobs

/-- Company record embedded in a job summary (the object form of the 005
implementation; `company.id`, `company.name`, `company.logo`, `company.verified`). -/
structure Company where
  id : String
  name : String
  logo : Option String
  verified : Bool
deriving Repr, DecidableEq

/-- Job-summary record as filtered by the 005 implementation: the filters read
`title`, `company.name` and `location`; the remaining fields are payload
carried through unchanged. -/
structure JobSummary where
  id : String
  title : String
  company : Company
  location : String
  type : String
  remoteOption : String
  postedAt : String
deriving Repr, DecidableEq

/-- Job record in the shape used by `services/JobsService.js`, where
`job.company` is a plain string. -/
structure JobRecord where
  id : String
  title : String
  company : String
  location : String
  type : String
  postedAt : String
deriving Repr, DecidableEq

/-- Job-detail record: `getJobDetails` inspects only `id` and returns the whole
record; the other fields are payload carried through unchanged. -/
structure JobDetail where
  id : String
  title : String
  description : String
  experienceLevel : String
  applicants : Nat
  featured : Bool
  active : Bool
deriving Repr, DecidableEq

/-- `charsLeadsWith pat s` is true when the character list `s` starts with
`pat` (the initial-segment test underlying the substring test below). -/
def charsLeadsWith : List Char → List Char → Bool
  | [], _ => true
  | _ :: _, [] => false
  | p :: ps, c :: cs => p == c && charsLeadsWith ps cs

/-- `charsOccursIn s pat` is true when `pat` occurs contiguously inside `s`:
the semantics of JavaScript `String.prototype.includes` on the underlying
character sequences (the empty pattern occurs in every string). -/
def charsOccursIn : List Char → List Char → Bool
  | [], pat => pat.isEmpty
  | c :: rest, pat => charsLeadsWith pat (c :: rest) || charsOccursIn rest pat

/-- JavaScript `s.toLowerCase()` as the character sequence of the lowercased
string (each character lowercased in place). -/
def jsToLower (s : String) : List Char :=
  s.data.map Char.toLower

/-- `jsIncludes s pat`: JavaScript `s.includes(pat)` on character sequences. -/
def jsIncludes (s pat : List Char) : Bool :=
  charsOccursIn s pat

/-- JavaScript truthiness of an optional string parameter: `undefined`/absent
and the empty string are falsy (`if (q)` in the source). -/
def strTruthy : Option String → Bool
  | none => false
  | some s => !(s == "")

/-- The `q` filter body of the 005 implementation (lines 775-782): lowercase
the query once, keep the jobs whose lowercased `title`, `company.name` or
`location` contains it. -/
def filterByQuery (q : String) (jobs : List JobSummary) : List JobSummary :=
  let query := jsToLower q
  jobs.filter fun job =>
    jsIncludes (jsToLower job.title) query ||
    jsIncludes (jsToLower job.company.name) query ||
    jsIncludes (jsToLower job.location) query

/-- The `location` filter body of the 005 implementation (lines 786-791):
keep the jobs whose lowercased `location` contains the lowercased term. -/
def filterByLocation (location : String) (jobs : List JobSummary) : List JobSummary :=
  let locationQuery := jsToLower location
  jobs.filter fun job =>
    jsIncludes (jsToLower job.location) locationQuery

/-- The filter pipeline of `searchAndListJobs` (005 lines 772-791): start from
the full collection, apply the `q` filter when `q` is truthy, then the
`location` filter when `location` is truthy. -/
def applyFilters (q location : Option String) (jobs : List JobSummary) :
    List JobSummary :=
  let filteredJobs := jobs
  let filteredJobs :=
    if strTruthy q then filterByQuery (q.getD "") filteredJobs else filteredJobs
  if strTruthy location then filterByLocation (location.getD "") filteredJobs
  else filteredJobs

/-- `Math.ceil(total / limit)` on naturals: exact for `limit ≥ 1`.  The source
leaves `limit = 0` unguarded (JS would produce `Infinity`/`NaN`, values outside
this model); every theorem below that depends on `totalPages` either assumes
`limit ≥ 1` or assumes at least one page exists. -/
def totalPagesOf (total limit : Nat) : Nat :=
  (total + limit - 1) / limit

/-- JavaScript `Array.prototype.slice(start, end)` with integer arguments:
negative indices count from the end of the array, indices are clamped to
`[0, length]`, and the result is the (possibly empty) window `[s, e)`. -/
def jsSlice (l : List α) (start stop : Int) : List α :=
  let len : Int := l.length
  let s := if start < 0 then max (len + start) 0 else min start len
  let e := if stop < 0 then max (len + stop) 0 else min stop len
  (l.take e.toNat).drop s.toNat

/-- The pagination descriptor `{ total, page, limit, totalPages }`; `page`
echoes the caller's value, which the source never validates, so it is an
integer. -/
structure Pagination where
  total : Nat
  page : Int
  limit : Nat
  totalPages : Nat
deriving Repr, DecidableEq

/-- Successful payload of the 005 `searchAndListJobs`:
`{ jobs: paginatedJobs, pagination }`. -/
structure SearchSuccess where
  jobs : List JobSummary
  pagination : Pagination
deriving Repr, DecidableEq

/-- The 005 implementation of `searchAndListJobs` (migrations file lines
753-839): filter, compute the pagination values, then reject with
"No jobs found" when the filtered set is empty, reject with
"Page number exceeds available pages" when `page > totalPages && totalPages > 0`,
and otherwise resolve with the sliced page and the descriptor. -/
def searchAndListJobs (q location : Option String) (page : Int) (limit : Nat)
    (allJobs : List JobSummary) : Except String SearchSuccess :=
  let filteredJobs := applyFilters q location allJobs
  let total := filteredJobs.length
  let totalPages := totalPagesOf total limit
  let startIndex : Int := (page - 1) * limit
  let endIndex : Int := startIndex + limit
  let paginatedJobs := jsSlice filteredJobs startIndex endIndex
  let pagination : Pagination := ⟨total, page, limit, totalPages⟩
  if filteredJobs.length = 0 then
    Except.error "No jobs found"
  else if (totalPages : Int) < page ∧ 0 < totalPages then
    Except.error "Page number exceeds available pages"
  else
    Except.ok ⟨paginatedJobs, pagination⟩

/-- Successful payload of the `services/JobsService.js` variant. -/
structure SearchSuccessJS where
  jobs : List JobRecord
  pagination : Pagination
deriving Repr, DecidableEq

/-- The filter pipeline of `services/JobsService.js` (lines 82-98): identical
to the 005 pipeline except that the `q` filter reads `job.company` as a plain
string. -/
def applyFiltersJS (q location : Option String) (jobs : List JobRecord) :
    List JobRecord :=
  let filteredJobs := jobs
  let filteredJobs :=
    if strTruthy q then
      let query := jsToLower (q.getD "")
      filteredJobs.filter fun job =>
        jsIncludes (jsToLower job.title) query ||
        jsIncludes (jsToLower job.company) query ||
        jsIncludes (jsToLower job.location) query
    else filteredJobs
  if strTruthy location then
    let locationQuery := jsToLower (location.getD "")
    filteredJobs.filter fun job =>
      jsIncludes (jsToLower job.location) locationQuery
  else filteredJobs

/-- `searchAndListJobs` of `services/JobsService.js` (lines 65-128): same
filter and pagination computation as the 005 version, but with no NotFound
branches — every invocation resolves with the sliced page (possibly empty)
and the descriptor. -/
def searchAndListJobsJS (q location : Option String) (page : Int) (limit : Nat)
    (allJobs : List JobRecord) : Except String SearchSuccessJS :=
  let filteredJobs := applyFiltersJS q location allJobs
  let total := filteredJobs.length
  let totalPages := totalPagesOf total limit
  let startIndex : Int := (page - 1) * limit
  let endIndex : Int := startIndex + limit
  let paginatedJobs := jsSlice filteredJobs startIndex endIndex
  Except.ok ⟨paginatedJobs, ⟨total, page, limit, totalPages⟩⟩

/-- `getJobDetails` (JobsService.js lines 13-53, identically in the 005 file
lines 699-741): `jobDetails.find(job => job.id === jobId)`, rejecting with
"Job not found" when there is no match and resolving with the first matching
record otherwise. -/
def getJobDetails (jobId : String) (jobDetails : List JobDetail) :
    Except String JobDetail :=
  match jobDetails.find? (fun job => job.id == jobId) with
  | none => Except.error "Job not found"
  | some jobDetail => Except.ok jobDetail

/-- Case-insensitive containment as the spec states it (`§4.2`): the lowercased
search term occurs contiguously inside the lowercased field. -/
def occursCI (hay pat : String) : Prop :=
  ∃ l r, jsToLower hay = l ++ jsToLower pat ++ r

/-- The window of page `page` (1-indexed) of size `limit`, exactly as the
source slices it: `filtered.slice((page-1)*limit, (page-1)*limit + limit)`. -/
def pageWindow (jobs : List JobSummary) (limit : Nat) (page : Nat) :
    List JobSummary :=
  jsSlice jobs (((page : Int) - 1) * limit) ((((page : Int) - 1) * limit) + limit)

/-- Concrete job summary used for witnesses and counterexamples. -/
def mkJob (i : Nat) : JobSummary :=
  ⟨toString i, "Engineer " ++ toString i, ⟨"c" ++ toString i, "Acme", none, true⟩,
    "Remote", "full-time", "remote", "2025-01-01"⟩

/-- A concrete collection of 10 records (§8's pagination example). -/
def jobs10 : List JobSummary :=
  (List.range 10).map mkJob

/-- Concrete plain-string job record used for witnesses. -/
def jr0 : JobRecord :=
  ⟨"1", "Engineer", "Acme", "Remote", "full-time", "2025-01-01"⟩

/-- Concrete detail records used for witnesses. -/
def mkDetail (i : Nat) : JobDetail :=
  ⟨toString i, "Engineer " ++ toString i, "desc", "mid", i, false, true⟩

end JairoJobs

namespace JairoJobs

/-! ## Auxiliary lemmas -/

theorem filterByQuery_nil (q : String) : filterByQuery q [] = [] := rfl

theorem filterByLocation_nil (t : String) : filterByLocation t [] = [] := rfl

theorem applyFilters_nil (q location : Option String) :
    applyFilters q location [] = [] := by
  simp only [applyFilters, filterByQuery_nil, filterByLocation_nil]
  split <;> split <;> rfl

theorem charsLeadsWith_iff (pat s : List Char) :
    charsLeadsWith pat s = true ↔ ∃ r, s = pat ++ r := by
  induction pat generalizing s with
  | nil => simp [charsLeadsWith]
  | cons p ps ih =>
    cases s with
    | nil => simp [charsLeadsWith]
    | cons c cs =>
      simp only [charsLeadsWith, Bool.and_eq_true, beq_iff_eq, ih,
        List.cons_append, List.cons.injEq]
      constructor
      · rintro ⟨hpc, r, hr⟩
        exact ⟨r, hpc.symm, hr⟩
      · rintro ⟨r, hcp, hr⟩
        exact ⟨hcp.symm, r, hr⟩

theorem charsOccursIn_iff (s pat : List Char) :
    charsOccursIn s pat = true ↔ ∃ l r, s = l ++ pat ++ r := by
  induction s with
  | nil =>
    simp only [charsOccursIn, List.isEmpty_iff]
    constructor
    · rintro rfl; exact ⟨[], [], rfl⟩
    · rintro ⟨l, r, hr⟩
      rcases List.append_eq_nil.mp (List.append_eq_nil.mp hr.symm).1 with ⟨-, h2⟩
      exact h2
  | cons c cs ih =>
    simp only [charsOccursIn, Bool.or_eq_true, charsLeadsWith_iff, ih]
    constructor
    · rintro (⟨r, hr⟩ | ⟨l, r, hr⟩)
      · exact ⟨[], r, by simpa using hr⟩
      · exact ⟨c :: l, r, by simp [hr]⟩
    · rintro ⟨l, r, hr⟩
      cases l with
      | nil => exact Or.inl ⟨r, by simpa using hr⟩
      | cons x xs =>
        simp only [List.cons_append, List.cons.injEq] at hr
        exact Or.inr ⟨xs, r, hr.2⟩

theorem jsIncludes_toLower_iff (hay pat : String) :
    jsIncludes (jsToLower hay) (jsToLower pat) = true ↔ occursCI hay pat :=
  charsOccursIn_iff (jsToLower hay) (jsToLower pat)

theorem take_min_length (l : List α) (n : Nat) :
    l.take (min n l.length) = l.take n := by
  rcases Nat.le_total n l.length with h | h
  · rw [Nat.min_eq_left h]
  · rw [Nat.min_eq_right h, List.take_length, List.take_of_length_le h]

theorem jsSlice_nat (l : List α) (a k : Nat) :
    jsSlice l (a : Int) ((a : Int) + (k : Int)) = (l.drop a).take k := by
  unfold jsSlice
  have h1 : ¬ ((a : Int) < 0) := by omega
  have h2 : ¬ ((a : Int) + (k : Int) < 0) := by omega
  simp only [h1, h2, if_false]
  have e1 : (min ((a : Int) + (k : Int)) ((l.length : Nat) : Int)).toNat
      = min (a + k) l.length := by omega
  have e2 : (min (a : Int) ((l.length : Nat) : Int)).toNat = min a l.length := by omega
  rw [e1, e2, take_min_length]
  rcases Nat.le_total a l.length with h | h
  · rw [Nat.min_eq_left h, List.take_drop]
  · rw [Nat.min_eq_right h, List.drop_of_length_le h, List.take_nil]
    exact List.drop_of_length_le (by simp)

theorem totalPagesOf_zero (limit : Nat) : totalPagesOf 0 limit = 0 := by
  unfold totalPagesOf
  rcases Nat.eq_zero_or_pos limit with h | h
  · simp [h]
  · exact Nat.div_eq_of_lt (by omega)

theorem totalPagesOf_pos (total limit : Nat) (h1 : 1 ≤ limit) (h2 : 1 ≤ total) :
    1 ≤ totalPagesOf total limit := by
  unfold totalPagesOf
  rw [Nat.le_div_iff_mul_le (by omega)]
  omega

theorem totalPagesOf_eq_succ (total limit : Nat) (h1 : 1 ≤ limit) (h2 : 1 ≤ total) :
    totalPagesOf total limit = (total - 1) / limit + 1 := by
  unfold totalPagesOf
  rw [show total + limit - 1 = (total - 1) + limit by omega]
  exact Nat.add_div_right _ (by omega)

theorem le_totalPagesOf_mul (total limit : Nat) (h1 : 1 ≤ limit) :
    total ≤ totalPagesOf total limit * limit := by
  rcases Nat.eq_zero_or_pos total with h0 | h0
  · simp [h0]
  · rw [totalPagesOf_eq_succ total limit h1 h0]
    by_contra hlt
    push_neg at hlt
    have hle : ((total - 1) / limit + 1) * limit ≤ total - 1 := by omega
    have h2 : (total - 1) / limit + 1 ≤ (total - 1) / limit :=
      (Nat.le_div_iff_mul_le (by omega)).mpr hle
    omega

theorem totalPagesOf_pred_mul_lt (total limit : Nat) (h1 : 1 ≤ limit) (h2 : 1 ≤ total) :
    (totalPagesOf total limit - 1) * limit < total := by
  rw [totalPagesOf_eq_succ total limit h1 h2, Nat.add_sub_cancel]
  have := Nat.div_mul_le_self (total - 1) limit
  omega

theorem flatten_take_windows (k : Nat) (l : List α) (n : Nat) :
    ((List.range n).map fun i => (l.drop (i * k)).take k).flatten = l.take (n * k) := by
  induction n with
  | zero => simp
  | succ n ih =>
    rw [List.range_succ, List.map_append, List.flatten_append, ih]
    simp only [List.map_cons, List.map_nil, List.flatten_cons, List.flatten_nil,
      List.append_nil]
    rw [← List.take_add, Nat.succ_mul]

end JairoJobs

namespace JairoJobs

/-! ## Claims -/

/-- C1: for every pair of collections and every search input, if the filtered
set is empty the 005 `searchAndListJobs` rejects with "No jobs found",
regardless of the requested page and limit; in particular this holds against
the empty collection (the degraded-load fallback). -/
theorem search_empty_filtered_rejects_noJobsFound
    (q location : Option String) (page : Int) (limit : Nat)
    (jobs : List JobSummary) :
    (applyFilters q location jobs = [] →
      searchAndListJobs q location page limit jobs = Except.error "No jobs found")
    ∧ searchAndListJobs q location page limit [] = Except.error "No jobs found" := by
  constructor
  · intro h
    simp [searchAndListJobs, h]
  · simp [searchAndListJobs, applyFilters_nil]

/-- Witness for C1: a query matching nothing on a one-record collection is
rejected with "No jobs found" even at page 7. -/
theorem search_empty_filtered_rejects_noJobsFound_witness :
    searchAndListJobs (some "zz") none 7 10 [mkJob 0] = Except.error "No jobs found" :=
  (search_empty_filtered_rejects_noJobsFound (some "zz") none 7 10 [mkJob 0]).1
    (by decide)

/-- C2: whenever the filtered set is non-empty, at least one page exists and
the requested page exceeds `totalPages`, the 005 `searchAndListJobs` rejects
with "Page number exceeds available pages"; concretely on a 10-record
collection with limit 5, pages 1 and 2 succeed and page 3 is rejected. -/
theorem search_page_beyond_rejects
    (q location : Option String) (page : Int) (limit : Nat)
    (jobs : List JobSummary)
    (hne : applyFilters q location jobs ≠ [])
    (hpages : 0 < totalPagesOf (applyFilters q location jobs).length limit)
    (hpage : (totalPagesOf (applyFilters q location jobs).length limit : Int) < page) :
    searchAndListJobs q location page limit jobs
      = Except.error "Page number exceeds available pages"
    ∧ searchAndListJobs none none 1 5 jobs10 = Except.ok ⟨jobs10.take 5, ⟨10, 1, 5, 2⟩⟩
    ∧ searchAndListJobs none none 2 5 jobs10 = Except.ok ⟨jobs10.drop 5, ⟨10, 2, 5, 2⟩⟩
    ∧ searchAndListJobs none none 3 5 jobs10
      = Except.error "Page number exceeds available pages" := by
  refine ⟨?_, rfl, rfl, rfl⟩
  have h0 : ¬ ((applyFilters q location jobs).length = 0) := by
    simpa [List.length_eq_zero] using hne
  simp [searchAndListJobs, h0, hpage, hpages]

/-- Witness for C2: page 3 of a 10-record collection with limit 5 is rejected. -/
theorem search_page_beyond_rejects_witness :
    searchAndListJobs none none 3 5 jobs10
      = Except.error "Page number exceeds available pages" :=
  (search_page_beyond_rejects none none 3 5 jobs10 (by decide) (by decide)
    (by decide)).1

end JairoJobs

namespace JairoJobs

/-- C3: a present, non-empty `q` keeps exactly the records whose lowercased
`title`, `company.name` or `location` contains the lowercased term (ANY of the
three), it is applied before the location filter, and an omitted or
empty-string `q` imposes no constraint. -/
theorem search_qFilter_spec (s : String) (location : Option String)
    (jobs : List JobSummary) (j : JobSummary) (hs : s ≠ "") :
    applyFilters none location jobs = applyFilters (some "") location jobs
    ∧ applyFilters (some s) location jobs
        = applyFilters none location (filterByQuery s jobs)
    ∧ (j ∈ filterByQuery s jobs
        ↔ j ∈ jobs
          ∧ (occursCI j.title s ∨ occursCI j.company.name s ∨ occursCI j.location s))
    ∧ List.Sublist (filterByQuery s jobs) jobs := by
  have hstrue : strTruthy (some s) = true := by simp [strTruthy, hs]
  refine ⟨?_, ?_, ?_, ?_⟩
  · simp [applyFilters, strTruthy]
  · simp [applyFilters, hstrue, strTruthy, hs]
  · simp only [filterByQuery, List.mem_filter, Bool.or_eq_true, jsIncludes_toLower_iff]
    tauto
  · exact List.filter_sublist _

/-- Witness for C3: on the 10-record collection, filtering with `q = "acme"`
then `location = "rem"` equals applying the `q` filter first. -/
theorem search_qFilter_spec_witness :
    applyFilters (some "acme") (some "rem") jobs10
      = applyFilters none (some "rem") (filterByQuery "acme" jobs10) :=
  (search_qFilter_spec "acme" (some "rem") jobs10 (mkJob 0) (by decide)).2.1

/-- C4: with both `q` and `location` present and non-empty, the location
filter keeps, from the already `q`-filtered set, exactly the records whose
lowercased `location` contains the lowercased term, and the combined result
is the intersection of the two filters' match sets. -/
theorem search_locationFilter_spec (s t : String) (jobs : List JobSummary)
    (j : JobSummary) (hs : s ≠ "") (ht : t ≠ "") :
    applyFilters (some s) (some t) jobs = filterByLocation t (filterByQuery s jobs)
    ∧ (j ∈ filterByLocation t (filterByQuery s jobs)
        ↔ j ∈ filterByQuery s jobs ∧ occursCI j.location t)
    ∧ (j ∈ applyFilters (some s) (some t) jobs
        ↔ j ∈ filterByQuery s jobs ∧ j ∈ filterByLocation t jobs) := by
  have hstrue : strTruthy (some s) = true := by simp [strTruthy, hs]
  have httrue : strTruthy (some t) = true := by simp [strTruthy, ht]
  have hcomb : applyFilters (some s) (some t) jobs
      = filterByLocation t (filterByQuery s jobs) := by
    simp [applyFilters, hstrue, httrue]
  refine ⟨hcomb, ?_, ?_⟩
  · simp only [filterByLocation, List.mem_filter, jsIncludes_toLower_iff]
  · rw [hcomb]
    simp only [filterByLocation, filterByQuery, List.mem_filter]
    tauto

/-- Witness for C4: the combined filters on the 10-record collection equal the
location filter applied to the `q`-filtered set. -/
theorem search_locationFilter_spec_witness :
    applyFilters (some "acme") (some "rem") jobs10
      = filterByLocation "rem" (filterByQuery "acme" jobs10) :=
  (search_locationFilter_spec "acme" "rem" jobs10 (mkJob 0) (by decide) (by decide)).1

/-- C9: for present, non-empty `q` and `location`, the two filters commute:
applying `q` then `location` yields the same sequence as `location` then `q`,
even though the implementation fixes the `q`-first order. -/
theorem search_filtersCommute (s t : String) (jobs : List JobSummary)
    (hs : s ≠ "") (ht : t ≠ "") :
    applyFilters (some s) (some t) jobs = filterByQuery s (filterByLocation t jobs)
    ∧ filterByLocation t (filterByQuery s jobs)
        = filterByQuery s (filterByLocation t jobs) := by
  have hstrue : strTruthy (some s) = true := by simp [strTruthy, hs]
  have httrue : strTruthy (some t) = true := by simp [strTruthy, ht]
  have hcomm : filterByLocation t (filterByQuery s jobs)
      = filterByQuery s (filterByLocation t jobs) := by
    simp only [filterByQuery, filterByLocation, List.filter_filter]
    congr 1
    funext job
    rw [Bool.and_comm]
  constructor
  · rw [← hcomm]
    simp [applyFilters, hstrue, httrue]
  · exact hcomm

/-- Witness for C9: the two filter orders agree on the 10-record collection. -/
theorem search_filtersCommute_witness :
    filterByLocation "rem" (filterByQuery "acme" jobs10)
      = filterByQuery "acme" (filterByLocation "rem" jobs10) :=
  (search_filtersCommute "acme" "rem" jobs10 (by decide) (by decide)).2

end JairoJobs

namespace JairoJobs

theorem jsSlice_stop_zero (l : List α) (st : Int) : jsSlice l st 0 = [] := by
  have h2 : ¬ ((0:Int) < 0) := by omega
  have he : min (0:Int) ((l.length : Nat) : Int) = 0 := by omega
  simp [jsSlice, h2, he]

/-- C5: on every successful search with `limit ≥ 1` and `page ≥ 1`, the
descriptor's `total` is the filtered count, `page` and `limit` echo the inputs,
`totalPages` is the ceiling of `total / limit` (zero at `total = 0`,
characterised by the two product bounds for `total ≥ 1`), and the returned
items are exactly the window `[(page-1)*limit, (page-1)*limit + limit)` of the
filtered sequence in its stable order. -/
theorem search_pagination_math (q location : Option String) (page : Int)
    (limit : Nat) (jobs : List JobSummary) (r : SearchSuccess)
    (hlimit : 1 ≤ limit) (hpage : 1 ≤ page)
    (hok : searchAndListJobs q location page limit jobs = Except.ok r) :
    r.pagination.total = (applyFilters q location jobs).length
    ∧ r.pagination.page = page
    ∧ r.pagination.limit = limit
    ∧ r.pagination.totalPages = totalPagesOf r.pagination.total limit
    ∧ totalPagesOf 0 limit = 0
    ∧ r.pagination.total ≤ r.pagination.totalPages * limit
    ∧ (r.pagination.totalPages - 1) * limit < r.pagination.total
    ∧ r.jobs
        = ((applyFilters q location jobs).drop ((page - 1).toNat * limit)).take limit := by
  simp only [searchAndListJobs] at hok
  split at hok
  case isTrue h0 => cases hok
  case isFalse h0 =>
    split at hok
    case isTrue hcond => cases hok
    case isFalse hcond =>
      injection hok with h
      subst h
      have htot : 1 ≤ (applyFilters q location jobs).length := by omega
      have h1 : (((page - 1).toNat : Int)) = page - 1 := Int.toNat_of_nonneg (by omega)
      have hstart : ((page - 1) * (limit : Int))
          = (((page - 1).toNat * limit : Nat) : Int) := by
        rw [Nat.cast_mul, h1]
      refine ⟨rfl, rfl, rfl, rfl, totalPagesOf_zero limit, ?_, ?_, ?_⟩
      · exact le_totalPagesOf_mul _ _ hlimit
      · exact totalPagesOf_pred_mul_lt _ _ hlimit htot
      · show jsSlice (applyFilters q location jobs)
            ((page - 1) * (limit : Int)) ((page - 1) * (limit : Int) + (limit : Int))
            = ((applyFilters q location jobs).drop ((page - 1).toNat * limit)).take limit
        rw [hstart]
        exact jsSlice_nat _ _ limit

/-- Witness for C5: page 2 of the 10-record collection with limit 5 is the
window dropping the first 5 records. -/
theorem search_pagination_math_witness :
    (⟨jobs10.drop 5, ⟨10, 2, 5, 2⟩⟩ : SearchSuccess).jobs
      = ((applyFilters none none jobs10).drop (((2:Int) - 1).toNat * 5)).take 5 :=
  (search_pagination_math none none 2 5 jobs10 ⟨jobs10.drop 5, ⟨10, 2, 5, 2⟩⟩
    (by decide) (by decide) rfl).2.2.2.2.2.2.2

/-- C6: `getJobDetails` returns the record whose `id` equals the requested id
exactly and unmodified (under the spec's invariant that ids are unique within
the collection), and rejects with "Job not found" when no record matches; the
embedding is a pure function, so neither outcome has side effects. -/
theorem getJobDetails_spec (details : List JobDetail) (jobId : String)
    (j : JobDetail) :
    ((details.map JobDetail.id).Nodup → j ∈ details → j.id = jobId →
      getJobDetails jobId details = Except.ok j)
    ∧ ((∀ d ∈ details, d.id ≠ jobId) →
      getJobDetails jobId details = Except.error "Job not found") := by
  constructor
  · intro hnd hmem hid
    unfold getJobDetails
    have hsome : (details.find? (fun job => job.id == jobId)).isSome :=
      List.find?_isSome.mpr ⟨j, hmem, by simp [hid]⟩
    obtain ⟨x, hx⟩ := Option.isSome_iff_exists.mp hsome
    rw [hx]
    have hpx : x.id = jobId := by simpa using List.find?_some hx
    have hxmem : x ∈ details := List.mem_of_find?_eq_some hx
    have hxj : x = j := List.inj_on_of_nodup_map hnd hxmem hmem (by rw [hpx, hid])
    rw [hxj]
  · intro hnone
    unfold getJobDetails
    have hfind : details.find? (fun job => job.id == jobId) = none := by
      rw [List.find?_eq_none]
      intro x hx
      simp [hnone x hx]
    rw [hfind]

/-- Witness for C6: looking up id "1" in a two-record collection returns the
matching record. -/
theorem getJobDetails_spec_witness :
    getJobDetails "1" [mkDetail 0, mkDetail 1] = Except.ok (mkDetail 1) :=
  (getJobDetails_spec [mkDetail 0, mkDetail 1] "1" (mkDetail 1)).1
    (by decide) (by decide) (by decide)

/-- C7: for every non-empty filtered sequence and `limit ≥ 1`, concatenating
the page windows for pages `1 .. totalPages` reconstructs the filtered
sequence exactly once, in order, with no gaps and no duplicates. -/
theorem search_pages_reconstruct (F : List JobSummary) (limit : Nat)
    (h1 : 1 ≤ limit) (h2 : F ≠ []) :
    ((List.range (totalPagesOf F.length limit)).map
        (fun i => pageWindow F limit (i + 1))).flatten = F := by
  have hw : (fun i => pageWindow F limit (i + 1))
      = fun i => (F.drop (i * limit)).take limit := by
    funext i
    unfold pageWindow
    have hc : (((i + 1 : Nat) : Int) - 1) * (limit : Int)
        = ((i * limit : Nat) : Int) := by push_cast; ring
    rw [hc]
    exact jsSlice_nat F (i * limit) limit
  rw [hw, flatten_take_windows]
  exact List.take_of_length_le (le_totalPagesOf_mul F.length limit h1)

/-- Witness for C7: the pages of size 3 of the 10-record collection flatten
back to the collection. -/
theorem search_pages_reconstruct_witness :
    ((List.range (totalPagesOf jobs10.length 3)).map
        (fun i => pageWindow jobs10 3 (i + 1))).flatten = jobs10 :=
  search_pages_reconstruct jobs10 3 (by decide) (by decide)

/-- Counterexample for C8 as stated: at `page = 0` (which passes the
`page > totalPages && totalPages > 0` guard because `0 > 1` is false), the 005
`searchAndListJobs` succeeds on a one-record collection with `total = 1 > 0`
and `page = 0 ≤ totalPages = 1`, yet returns the empty page — an empty
successful page does occur. -/
theorem search_pageZero_success_empty :
    searchAndListJobs none none 0 1 [mkJob 0] = Except.ok ⟨[], ⟨1, 0, 1, 1⟩⟩ := rfl

/-- C8 (amended with `page ≥ 1`, the 1-indexed pages of the contract): every
successful search with `limit ≥ 1` and `page ≥ 1` returns a non-empty page
(success forces `total > 0` and `page ≤ totalPages`, and then the slice is
non-empty). -/
theorem search_success_page_nonempty (q location : Option String) (page : Int)
    (limit : Nat) (jobs : List JobSummary) (r : SearchSuccess)
    (hlimit : 1 ≤ limit) (hpage : 1 ≤ page)
    (hok : searchAndListJobs q location page limit jobs = Except.ok r) :
    r.jobs ≠ [] := by
  simp only [searchAndListJobs] at hok
  split at hok
  case isTrue h0 => cases hok
  case isFalse h0 =>
    split at hok
    case isTrue hcond => cases hok
    case isFalse hcond =>
      injection hok with h
      subst h
      have htot : 1 ≤ (applyFilters q location jobs).length := by omega
      have htp : 1 ≤ totalPagesOf (applyFilters q location jobs).length limit :=
        totalPagesOf_pos _ _ hlimit htot
      have hple : page ≤ (totalPagesOf (applyFilters q location jobs).length limit : Int) := by
        by_contra hlt
        push_neg at hlt
        exact hcond ⟨hlt, by omega⟩
      have h1 : (((page - 1).toNat : Int)) = page - 1 := Int.toNat_of_nonneg (by omega)
      have hstart : ((page - 1) * (limit : Int))
          = (((page - 1).toNat * limit : Nat) : Int) := by
        rw [Nat.cast_mul, h1]
      show jsSlice (applyFilters q location jobs)
          ((page - 1) * (limit : Int)) ((page - 1) * (limit : Int) + (limit : Int)) ≠ []
      rw [hstart, jsSlice_nat]
      have hlp : (page - 1).toNat
          ≤ totalPagesOf (applyFilters q location jobs).length limit - 1 := by
        omega
      have hsl : (page - 1).toNat * limit
          ≤ (totalPagesOf (applyFilters q location jobs).length limit - 1) * limit :=
        Nat.mul_le_mul_right _ hlp
      have hlt2 : (page - 1).toNat * limit < (applyFilters q location jobs).length :=
        lt_of_le_of_lt hsl (totalPagesOf_pred_mul_lt _ _ hlimit htot)
      intro hnil
      have hlen := congrArg List.length hnil
      simp only [List.length_take, List.length_drop, List.length_nil] at hlen
      omega

/-- Witness for the amended C8: page 2 of the 10-record collection with
limit 5 is non-empty. -/
theorem search_success_page_nonempty_witness :
    (⟨jobs10.drop 5, ⟨10, 2, 5, 2⟩⟩ : SearchSuccess).jobs ≠ [] :=
  search_success_page_nonempty none none 2 5 jobs10 ⟨jobs10.drop 5, ⟨10, 2, 5, 2⟩⟩
    (by decide) (by decide) rfl

/-- C10: calling the `services/JobsService.js` variant with `page = 0` makes
the start index `-limit` and the end index `0`, so the slice selects nothing;
the call still resolves successfully with an empty jobs list and a descriptor
echoing `page = 0`. -/
theorem searchJS_page_zero (q location : Option String) (limit : Nat)
    (jobs : List JobRecord) (hlimit : 1 ≤ limit) :
    searchAndListJobsJS q location 0 limit jobs
      = Except.ok ⟨[], ⟨(applyFiltersJS q location jobs).length, 0, limit,
          totalPagesOf (applyFiltersJS q location jobs).length limit⟩⟩
    ∧ jsSlice (applyFiltersJS q location jobs) (-(limit : Int)) 0 = [] := by
  constructor
  · simp only [searchAndListJobsJS]
    have hse : ((0:Int) - 1) * (limit : Int) + (limit : Int) = 0 := by ring
    rw [hse, jsSlice_stop_zero]
  · exact jsSlice_stop_zero _ _

/-- Witness for C10: `page = 0` with limit 10 on a one-record collection
resolves with an empty page and `page = 0` echoed. -/
theorem searchJS_page_zero_witness :
    searchAndListJobsJS none none 0 10 [jr0] = Except.ok ⟨[], ⟨1, 0, 10, 1⟩⟩ :=
  (searchJS_page_zero none none 10 [jr0] (by decide)).1

end JairoJobs
